import Mathlib

/-!
# bpvo: aligned allocator and point cloud container

A shallow embedding of `bpvo/aligned_allocator.h` and `bpvo/point_cloud.cc`.

Conventions of the embedding.

* Addresses, sizes and counts are natural numbers; `size_type` arithmetic is
  reduced modulo `2 ^ w` at the places where the C++ code computes in
  `size_type`, and conversions to `int` go through `toInt32`.
* The platform (the heap behind `posix_memalign`, the file system behind
  `std::ofstream`) is a parameter of the operations that use it.
* A C++ exception is a value of `Exn`; code that can throw returns `Except Exn _`.
* Storage that C++ leaves uninitialised is a parameter (`raw`) holding whatever
  the memory contained before.
* `std::vector` is a list of elements together with its capacity; exhaustion of
  the memory that holds the elements of a container is not modelled.
* The header `bpvo/point_cloud.h` (and `bpvo/types.h`, `bpvo/debug.h`) is not part
  of the sources, so the scalar types of the point record, the padding length
  and the transform type are parameters; where a colour value matters the
  channel is the 8-bit unsigned `UChar`, the type `ToPlyFile` sizes it as.
-/

/-- Exceptions of the C++ standard library raised by the modelled code. -/
inductive Exn where
  | bad_alloc
  | length_error
deriving DecidableEq, Repr

/-- Both exception classes derive from `std::exception`, which is what the
handler in `ToPlyFile` catches. -/
def Exn.isStdException : Exn → Bool
  | .bad_alloc => true
  | .length_error => true

/-- Conversion of an unsigned value to a 32-bit `int`: reduction modulo `2 ^ 32`
into the range `-2 ^ 31 .. 2 ^ 31 - 1`. -/
def toInt32 (n : Nat) : Int :=
  if n % 2 ^ 32 < 2 ^ 31 then ((n % 2 ^ 32 : Nat) : Int)
  else ((n % 2 ^ 32 : Nat) : Int) - 2 ^ 32

/-- Conversion of an `int` to the 64-bit `size_t`. -/
def toSizeT (i : Int) : Nat := (i % 2 ^ 64).toNat

namespace AlignedAllocator

/-- Error numbers returned by `posix_memalign`. -/
def EINVAL : Nat := 22

/-- Error number for an exhausted heap. -/
def ENOMEM : Nat := 12

/-- The platform under the allocator: the size of a pointer, the width of
`size_type`, and the heap. `memalign a s` is the address of a fresh block of `s`
bytes aligned to `a`, or `none` when the heap cannot supply one; the heap
honours the alignment it is asked for. -/
structure Platform where
  ptrSize : Nat
  sizeBits : Nat
  memalign : Nat → Nat → Option Nat
  memalign_aligned : ∀ a s p, memalign a s = some p → p % a = 0

/-- Whether `x` is a power of two: nonzero with a single bit set. -/
def isPow2 (x : Nat) : Bool := x != 0 && (x &&& (x - 1)) == 0

/-- The documented contract of `posix_memalign(&memptr, alignment, size)`: the
call fails with `EINVAL` unless `alignment` is a power of two and a multiple of
`sizeof(void*)`, fails with `ENOMEM` when the heap has no block, and otherwise
stores the block address and returns `0`. The result is the return code and the
value of `memptr` after the call. -/
def posix_memalign (sys : Platform) (memptr alignment size : Nat) : Nat × Nat :=
  if !(isPow2 alignment && alignment % sys.ptrSize == 0) then (EINVAL, memptr)
  else
    match sys.memalign alignment size with
    | none => (ENOMEM, memptr)
    | some p => (0, p)

/-- The argument `n*sizeof(T)` of the platform call, computed in `size_type`. -/
def requestBytes (sys : Platform) (sizeofT n : Nat) : Nat :=
  (n * sizeofT) % 2 ^ sys.sizeBits

/-- The member `AlignedAllocator<T, Alignment>::allocate(n)`, on the branch
compiled when `WIN32` is not defined. -/
def allocate (sys : Platform) (sizeofT Alignment n : Nat) : Except Exn Nat :=
  let ret := 0
  let r := posix_memalign sys ret Alignment (requestBytes sys sizeofT n)
  if r.1 != 0 then .error .bad_alloc
  else .ok r.2

/-- A 64-bit platform whose heap never runs out: the block for alignment `a`
is placed at address `16 * a`. -/
def lp64 : Platform where
  ptrSize := 8
  sizeBits := 64
  memalign := fun a _ => some (16 * a)
  memalign_aligned := by
    intro a s p h
    cases h
    exact Nat.mul_mod_left 16 a

/-- A 64-bit platform whose heap is exhausted. -/
def lp64Full : Platform where
  ptrSize := 8
  sizeBits := 64
  memalign := fun _ _ => none
  memalign_aligned := by
    intro a s p h
    cases h

end AlignedAllocator

namespace bpvo

/-- A fixed-size vector of four coefficients (`Eigen::Matrix<_, 4, 1>`). -/
structure Vec4 (α : Type) where
  x : α
  y : α
  z : α
  w : α
deriving DecidableEq, Repr

/-- The Eigen operation `setZero()` on a four-vector. -/
def Vec4.setZero {α : Type} [Zero α] (_v : Vec4 α) : Vec4 α := ⟨0, 0, 0, 0⟩

/-- Modelled from the spec: the record declared in `bpvo/point_cloud.h`, which is
not part of the sources. It holds a homogeneous position, an RGBA colour, a
weight and explicit padding bytes. `F` is the `float` scalar of position and
weight, `C` the scalar of a colour channel. -/
structure PointWithInfo (F C : Type) where
  _xyzw : Vec4 F
  _rgba : Vec4 C
  _w : F
  _pad : List Nat
deriving DecidableEq, Repr

namespace PointWithInfo

variable {F C : Type}

/-- The default constructor `PointWithInfo() : _w(0.0f) {}`. The Eigen members
and the padding are default-initialised, which leaves them as the storage `raw`
had them; only the weight is written. -/
def construct [Zero F] (raw : PointWithInfo F C) : PointWithInfo F C :=
  { raw with _w := 0 }

/-- The constructor from position, colour and weight; the padding keeps what the
storage held. -/
def constructFrom (raw : PointWithInfo F C) (xyzw : Vec4 F) (rgba : Vec4 C) (w : F) :
    PointWithInfo F C :=
  { raw with _xyzw := xyzw, _rgba := rgba, _w := w }

/-- Accessor `xyzw()`. -/
def xyzw (p : PointWithInfo F C) : Vec4 F := p._xyzw

/-- Accessor `rgba()`. -/
def rgba (p : PointWithInfo F C) : Vec4 C := p._rgba

/-- Accessor `weight()`. -/
def weight (p : PointWithInfo F C) : F := p._w

/-- The member `setZero()`; `padLen` is `sizeof(_pad)`. -/
def setZero [Zero F] [Zero C] (padLen : Nat) (p : PointWithInfo F C) : PointWithInfo F C :=
  { _xyzw := p._xyzw.setZero
    _rgba := p._rgba.setZero
    _w := 0
    _pad := List.replicate padLen 0 }

/-- The record whose members are all zero, with `padLen` zero padding bytes. -/
def zeroRecord (F C : Type) [Zero F] [Zero C] (padLen : Nat) : PointWithInfo F C :=
  { _xyzw := ⟨0, 0, 0, 0⟩
    _rgba := ⟨0, 0, 0, 0⟩
    _w := 0
    _pad := List.replicate padLen 0 }

/-- The members of a record one after the other: position, colour, weight and
then the padding bytes, scalars rendered by `encF` and `encC`. -/
def rawBytes (encF : F → List Nat) (encC : C → List Nat) (p : PointWithInfo F C) : List Nat :=
  encF p._xyzw.x ++ encF p._xyzw.y ++ encF p._xyzw.z ++ encF p._xyzw.w
    ++ (encC p._rgba.x ++ encC p._rgba.y ++ encC p._rgba.z ++ encC p._rgba.w)
    ++ encF p._w ++ p._pad

end PointWithInfo

/-- The container `std::vector`: its elements in order and its capacity. A request
beyond `max_size()` or beyond the memory available raises an exception that
leaves the member of `PointCloud` that made it; the operations are modelled for
the calls that return. -/
structure StdVector (α : Type) where
  elems : List α
  cap : Nat

namespace StdVector

variable {α : Type}

/-- The empty vector. -/
def empty : StdVector α := ⟨[], 0⟩

/-- The constructor `vector(n)`: `n` elements, element `i` built by the default
constructor `ctor` in storage that held `raw i`. -/
def sized (ctor : α → α) (raw : Nat → α) (n : Nat) : StdVector α :=
  ⟨(List.range n).map (fun i => ctor (raw i)), n⟩

/-- The copy constructor. -/
def copy (v : StdVector α) : StdVector α := ⟨v.elems, v.elems.length⟩

/-- The member `size()`. -/
def size (v : StdVector α) : Nat := v.elems.length

/-- The member `empty()`. -/
def isEmpty (v : StdVector α) : Bool := v.elems.isEmpty

/-- The member `clear()`: the elements go, the capacity stays. -/
def clear (v : StdVector α) : StdVector α := ⟨[], v.cap⟩

/-- The member `reserve(n)`: the capacity grows to `n` when it was smaller; the
elements move to the new storage unchanged. -/
def reserve (n : Nat) (v : StdVector α) : StdVector α :=
  if v.cap < n then ⟨v.elems, n⟩ else v

/-- The member `resize(n)`: a shorter length erases from the end, a longer one
appends default-constructed elements, element `i` built in storage that held
`raw i`. -/
def resize (ctor : α → α) (raw : Nat → α) (n : Nat) (v : StdVector α) : StdVector α :=
  if n ≤ v.elems.length then ⟨v.elems.take n, v.cap⟩
  else
    ⟨v.elems ++ (List.range' v.elems.length (n - v.elems.length)).map (fun i => ctor (raw i)),
      max v.cap n⟩

end StdVector

/-- The class `PointCloud`: the point sequence and the pose. `T` is the type
`Transform`. -/
structure PointCloud (F C T : Type) where
  _points : StdVector (PointWithInfo F C)
  _pose : T

namespace PointCloud

variable {F C T : Type}

/-- The default constructor; `identity` is `Transform::Identity()`. -/
def create (identity : T) : PointCloud F C T := ⟨StdVector.empty, identity⟩

/-- The constructor from a point sequence and a pose. -/
def ofVectorPose (v : StdVector (PointWithInfo F C)) (pose : T) : PointCloud F C T :=
  ⟨v.copy, pose⟩

/-- The constructor from a point sequence; the pose is the identity. -/
def ofVector (identity : T) (v : StdVector (PointWithInfo F C)) : PointCloud F C T :=
  ofVectorPose v identity

/-- The constructor `PointCloud(n, T)`. -/
def ofSizePose [Zero F] (raw : Nat → PointWithInfo F C) (n : Nat) (pose : T) :
    PointCloud F C T :=
  ⟨StdVector.sized PointWithInfo.construct raw n, pose⟩

/-- The constructor `PointCloud(n)`; the pose is the identity. -/
def ofSize [Zero F] (identity : T) (raw : Nat → PointWithInfo F C) (n : Nat) :
    PointCloud F C T :=
  ofSizePose raw n identity

/-- The member `points()`. -/
def points (pc : PointCloud F C T) : StdVector (PointWithInfo F C) := pc._points

/-- The member `clear()`. -/
def clear (pc : PointCloud F C T) : PointCloud F C T :=
  { pc with _points := pc._points.clear }

/-- The member `empty()`. -/
def empty (pc : PointCloud F C T) : Bool := pc._points.isEmpty

/-- The member `size()`. -/
def size (pc : PointCloud F C T) : Nat := pc._points.size

/-- The member `reserve(n)`. -/
def reserve (n : Nat) (pc : PointCloud F C T) : PointCloud F C T :=
  { pc with _points := pc._points.reserve n }

/-- The member `resize(n)`. -/
def resize [Zero F] (raw : Nat → PointWithInfo F C) (n : Nat) (pc : PointCloud F C T) :
    PointCloud F C T :=
  { pc with _points := pc._points.resize PointWithInfo.construct raw n }

/-- The member `pose()`. -/
def pose (pc : PointCloud F C T) : T := pc._pose

/-- The condition of the assertion in `operator[]`:
`i >= 0 && i < (int) size()`. -/
def subscriptAssert (pc : PointCloud F C T) (i : Int) : Bool :=
  decide (i ≥ 0) && decide (i < toInt32 pc.size)

/-- The member `operator[](int i)` of a debug build (both overloads have the same
body): `none` when the assertion fails, otherwise element `i` of the sequence. -/
def subscript (pc : PointCloud F C T) (i : Int) : Option (PointWithInfo F C) :=
  if pc.subscriptAssert i then pc._points.elems[toSizeT i]? else none

end PointCloud

/-- The file system under `std::ofstream`: which paths can be opened for
writing, and, for a path, which output operations meet a device error
(`writeError path k` for the operation number `k`). -/
structure FileSystem where
  canOpen : String → Bool
  writeError : String → Nat → Bool

/-- The state of a `std::ofstream`: whether a file is attached, the state bits,
the text that reached the file, the number of output operations that reached the
device, and the device. -/
structure OFStream where
  isOpen : Bool
  failbit : Bool
  badbit : Bool
  text : String
  ops : Nat
  dev : Nat → Bool

/-- The constructor `std::ofstream ofs(filename)`: a file that cannot be opened
sets `failbit`; no exception is raised, the exception mask being empty. -/
def ofstream (fs : FileSystem) (filename : String) : OFStream :=
  if fs.canOpen filename then ⟨true, false, false, "", 0, fs.writeError filename⟩
  else ⟨false, true, false, "", 0, fs.writeError filename⟩

namespace OFStream

/-- The member `good()`. -/
def good (s : OFStream) : Bool := !s.failbit && !s.badbit

/-- The member `bad()`. -/
def bad (s : OFStream) : Bool := s.badbit

/-- An output operation `ofs << str`: a stream that is not good only gets
`failbit`; on a good stream the text reaches the file unless the device reports
an error, which sets `badbit`. -/
def insert (s : OFStream) (str : String) : OFStream :=
  if s.good then
    if s.dev s.ops then { s with badbit := true, ops := s.ops + 1 }
    else { s with text := s.text ++ str, ops := s.ops + 1 }
  else { s with failbit := true }

/-- The member `flush()`: a stream that is not good gets `failbit`; the text of a
good stream has already reached the file. -/
def flush (s : OFStream) : OFStream :=
  if s.good then s else { s with failbit := true }

/-- The manipulator `std::endl`: a newline, then `flush()`. -/
def endl (s : OFStream) : OFStream := (s.insert "\n").flush

/-- The member `close()`: closing a stream with no file attached sets
`failbit`. -/
def close (s : OFStream) : OFStream :=
  if s.isOpen then { s with isOpen := false } else { s with failbit := true }

end OFStream

/-- The constructor `std::vector<char> data(nbytes)` with `nbytes` an `int`: the
count is converted to `size_t`, and a count above `max_size()` raises
`std::length_error`. A count within `max_size()` gets its buffer (exhaustion of
memory is not modelled). The result is the length of the buffer. -/
def scratchBuffer (nbytes : Int) : Except Exn Nat :=
  if toSizeT nbytes > 2 ^ 63 - 1 then .error .length_error else .ok (toSizeT nbytes)

/-- The value of `int nbytes = points.size() * (3*sizeof(float) + 4*sizeof(uint8_t))`:
the product in the 64-bit `size_t`, converted to `int`. -/
def scratchBytes (n : Nat) : Int := toInt32 ((n * (3 * 4 + 4 * 1)) % 2 ^ 64)

/-- The body of the loop over the points: one data line. `fmt` is the stream
insertion of a `float`, `castInt` the conversion `(int)` of a colour channel. -/
def writePoint {F C : Type} (fmt : F → String) (castInt : C → Int) (ofs : OFStream)
    (p : PointWithInfo F C) : OFStream :=
  ofs |>.insert (fmt p.xyzw.x) |>.insert " " |>.insert (fmt p.xyzw.y) |>.insert " "
    |>.insert (fmt p.xyzw.z) |>.insert " "
    |>.insert (toString (castInt p.rgba.x)) |>.insert " "
    |>.insert (toString (castInt p.rgba.y)) |>.insert " "
    |>.insert (toString (castInt p.rgba.z)) |>.insert " "
    |>.insert (toString (castInt p.rgba.w)) |>.insert "\n"

/-- The header written by `ToPlyFile`, statement by statement. -/
def writeHeader (ofs : OFStream) (n : Nat) (comment : String) : OFStream :=
  let ofs := ofs |>.insert "ply" |>.endl
  let ofs := ofs |>.insert "format ascii 1.0" |>.endl
  let ofs := ofs |>.insert "comment generated by bpvo" |>.endl
  let ofs := if !comment.isEmpty then ofs |>.insert "comment " |>.insert comment |>.endl else ofs
  let ofs := ofs |>.insert "element vertex " |>.insert (toString n) |>.endl
  let ofs := ofs |>.insert "property float x" |>.endl
  let ofs := ofs |>.insert "property float y" |>.endl
  let ofs := ofs |>.insert "property float z" |>.endl
  let ofs := ofs |>.insert "property uchar red" |>.endl
  let ofs := ofs |>.insert "property uchar green" |>.endl
  let ofs := ofs |>.insert "property uchar blue" |>.endl
  let ofs := ofs |>.insert "property uchar alpha" |>.endl
  ofs |>.insert "end_header" |>.endl

/-- The `try` block of `ToPlyFile`: the stream as the block leaves it, and either
the value it returns or the exception it raises. -/
def tryBlock {F C : Type} (fs : FileSystem) (fmt : F → String) (castInt : C → Int)
    (filename : String) (points : StdVector (PointWithInfo F C)) (comment : String) :
    OFStream × Except Exn Bool :=
  let ofs := ofstream fs filename
  let ofs := writeHeader ofs points.size comment
  let nbytes := scratchBytes points.size
  match scratchBuffer nbytes with
  | .error e => (ofs, .error e)
  | .ok _ =>
    let ofs := points.elems.foldl (writePoint fmt castInt) ofs
    let ofs := ofs.close
    (ofs, .ok (!ofs.bad))

/-- What a call of `ToPlyFile` leaves behind: the value returned, the text of the
file at the target path (`none` when the file was never opened), and the
warnings logged. -/
structure PlyResult where
  ret : Bool
  file : Option String
  log : List String
deriving DecidableEq, Repr

/-- Modelled from the spec: the macro `Warn` of `bpvo/debug.h`, which is not part
of the sources. It sends a warning-level message to the diagnostics sink; the
sink is the list of the messages it received. -/
def Warn (log : List String) (message : String) : List String := log ++ [message]

/-- The function `ToPlyFile(filename, points, comment)`. The handler catches
`std::exception`, logs the warning and returns `false`; the stream is destroyed
on every path, which leaves the text written so far in the file. -/
def ToPlyFile {F C : Type} (fs : FileSystem) (fmt : F → String) (castInt : C → Int)
    (filename : String) (points : StdVector (PointWithInfo F C)) (comment : String) :
    Except Exn PlyResult :=
  let r := tryBlock fs fmt castInt filename points comment
  let file := if fs.canOpen filename then some r.1.text else none
  match r.2 with
  | .ok b => .ok ⟨b, file, []⟩
  | .error e =>
    if e.isStdException then
      .ok ⟨false, file, Warn [] ("Failed to open file " ++ filename ++ "\n")⟩
    else .error e

/-- The header lines of the PLY text as the specification lists them, for a
sequence of `n` points. -/
def plyHeaderLines (comment : String) (n : Nat) : List String :=
  ["ply", "format ascii 1.0", "comment generated by bpvo"]
    ++ (if comment = "" then [] else ["comment " ++ comment])
    ++ ["element vertex " ++ toString n,
        "property float x", "property float y", "property float z",
        "property uchar red", "property uchar green", "property uchar blue",
        "property uchar alpha", "end_header"]

/-- The seven values of a data line as the specification lists them. -/
def plyDataFields {F C : Type} (fmt : F → String) (castInt : C → Int)
    (p : PointWithInfo F C) : List String :=
  [fmt p.xyzw.x, fmt p.xyzw.y, fmt p.xyzw.z,
   toString (castInt p.rgba.x), toString (castInt p.rgba.y),
   toString (castInt p.rgba.z), toString (castInt p.rgba.w)]

/-- The PLY text as the specification describes it: the header lines, then one
line per point with its seven values separated by spaces, every line ended by a
newline. -/
def plyText {F C : Type} (fmt : F → String) (castInt : C → Int)
    (points : List (PointWithInfo F C)) (comment : String) : String :=
  String.join ((plyHeaderLines comment points.length
    ++ points.map (fun p => " ".intercalate (plyDataFields fmt castInt p))).map (fun l => l ++ "\n"))

/-- A file system in which every path opens and no write fails. -/
def fsWritable : FileSystem := ⟨fun _ => true, fun _ _ => false⟩

/-- A file system in which no path can be opened (no directory exists). -/
def fsNoDirectory : FileSystem := ⟨fun _ => false, fun _ _ => false⟩

/-- The scalar of a colour channel: an 8-bit unsigned value. The header that
declares the colour type is not part of the sources; `ToPlyFile` sizes the colour
of a point as `4*sizeof(uint8_t)` and prints each channel through `(int)`. -/
abbrev UChar := Fin 256

/-- The conversion `(int)` of an 8-bit unsigned channel. -/
def UChar.toInt (c : UChar) : Int := (c.val : Int)


/-- The stream insertion of a `float` that holds an integer of fewer than seven
digits: the default formatting prints the integer. Positions of the example
points are such values. -/
def fmtIntegral (x : Int) : String := toString x

/-- A cloud of `2 ^ 31` zero records with the unit pose. -/
def hugeCloud : PointCloud Int Int Unit :=
  ⟨⟨List.replicate (2 ^ 31) (PointWithInfo.zeroRecord Int Int 0), 2 ^ 31⟩, ()⟩

/-- The three points of the round-trip example of the specification. -/
def examplePoints : List (PointWithInfo Int UChar) :=
  [⟨⟨0, 0, 0, 1⟩, ⟨255, 0, 0, 255⟩, 0, []⟩,
   ⟨⟨1, 0, 0, 1⟩, ⟨0, 255, 0, 255⟩, 0, []⟩,
   ⟨⟨0, 1, 0, 1⟩, ⟨0, 0, 255, 255⟩, 0, []⟩]

/-- The first point of the round-trip example: the origin, in red. -/
def redPoint : PointWithInfo Int UChar := ⟨⟨0, 0, 0, 1⟩, ⟨255, 0, 0, 255⟩, 0, []⟩

end bpvo

/-! ## Theorems -/

set_option maxRecDepth 100000

namespace AlignedAllocator

/-- A power of two passes the power-of-two test of `posix_memalign`. -/
theorem isPow2_two_pow (k : Nat) : isPow2 (2 ^ k) = true := by
  have h : (2 ^ k) &&& (2 ^ k - 1) = 0 := by
    apply Nat.eq_of_testBit_eq
    intro i
    simp [Nat.testBit_and, Nat.testBit_two_pow, Nat.testBit_two_pow_sub_one]
  simp [isPow2, h]

/-- A number between `2 ^ k` and `2 ^ (k + 1)` has bit `k` set. -/
theorem testBit_top (y k : Nat) (h1 : 2 ^ k ≤ y) (h2 : y < 2 ^ (k + 1)) :
    y.testBit k = true := by
  rw [Nat.testBit_to_div_mod]
  have : y / 2 ^ k = 1 := by
    apply Nat.div_eq_of_lt_le
    · simpa using h1
    · simpa [pow_succ, Nat.mul_comm] using h2
  simp [this]

/-- The power-of-two test accepts exactly the powers of two. -/
theorem isPow2_iff (x : Nat) : isPow2 x = true ↔ ∃ k, x = 2 ^ k := by
  constructor
  · intro h
    simp only [isPow2, Bool.and_eq_true, bne_iff_ne, ne_eq, beq_iff_eq] at h
    obtain ⟨hx, hand⟩ := h
    refine ⟨Nat.log2 x, ?_⟩
    by_contra hne
    have hlo : 2 ^ Nat.log2 x ≤ x := Nat.log2_self_le hx
    have hhi : x < 2 ^ (Nat.log2 x + 1) := Nat.lt_log2_self
    have h1 : x.testBit (Nat.log2 x) = true := testBit_top x _ hlo hhi
    have h2 : (x - 1).testBit (Nat.log2 x) = true :=
      testBit_top (x - 1) _ (by omega) (by omega)
    have h3 : (x &&& (x - 1)).testBit (Nat.log2 x) = true := by
      rw [Nat.testBit_and, h1, h2]; rfl
    rw [hand] at h3
    simp at h3
  · rintro ⟨k, rfl⟩
    exact isPow2_two_pow k

/-- A call of `posix_memalign` that returns `0` stores an address divisible by the
alignment. -/
theorem posix_memalign_ok_aligned (sys : Platform) (memptr alignment size : Nat)
    (h : (posix_memalign sys memptr alignment size).1 = 0) :
    (posix_memalign sys memptr alignment size).2 % alignment = 0 := by
  unfold posix_memalign at h ⊢
  by_cases hc : (!(isPow2 alignment && alignment % sys.ptrSize == 0)) = true
  · simp [hc, EINVAL] at h
  · cases hm : sys.memalign alignment size with
    | none => simp [hc, hm, ENOMEM] at h
    | some p =>
      simp only [hc, hm]
      exact sys.memalign_aligned _ _ _ hm

/-- Claim C1, amended. For an alignment `A` that is a power of two, `allocate(n)`
returns exactly the address the heap supplies when `A` is also a multiple of
`sizeof(void*)` (and raises `bad_alloc` when the heap has none), it raises
`bad_alloc` for every `n` when `A` is not a multiple of `sizeof(void*)`, and every
address it returns is divisible by `A`. -/
theorem allocate_aligned (sys : Platform) (sizeofT A n : Nat) (hA : ∃ k, A = 2 ^ k) :
    allocate sys sizeofT A n =
        (if A % sys.ptrSize = 0 then
          match sys.memalign A (requestBytes sys sizeofT n) with
          | some p => Except.ok p
          | none => Except.error Exn.bad_alloc
        else Except.error Exn.bad_alloc)
      ∧ ∀ p, allocate sys sizeofT A n = Except.ok p → p % A = 0 := by
  have hpow : isPow2 A = true := (isPow2_iff A).2 hA
  constructor
  · unfold allocate posix_memalign
    by_cases hp : A % sys.ptrSize = 0
    · simp only [hpow, hp, beq_self_eq_true, Bool.and_self, Bool.not_true, if_true]
      cases hm : sys.memalign A (requestBytes sys sizeofT n) <;> simp [ENOMEM]
    · simp [hpow, hp, EINVAL]
  · intro p hret
    unfold allocate at hret
    by_cases hz : (posix_memalign sys 0 A (requestBytes sys sizeofT n)).1 = 0
    · have hal := posix_memalign_ok_aligned sys 0 A (requestBytes sys sizeofT n) hz
      simp only [hz, bne_self_eq_false, Bool.false_eq_true, if_false] at hret
      cases hret
      exact hal
    · simp [hz] at hret

/-- Witness of `allocate_aligned`: alignment 16 on the 64-bit platform, with a
heap that supplies the block and with an exhausted heap. -/
theorem allocate_aligned_witness :
    (∃ k, 16 = 2 ^ k) ∧ allocate lp64 4 16 3 = Except.ok 256 ∧ 256 % 16 = 0
      ∧ allocate lp64Full 4 16 3 = Except.error Exn.bad_alloc :=
  ⟨⟨4, rfl⟩, rfl, (allocate_aligned lp64 4 16 3 ⟨4, rfl⟩).2 256 rfl,
    (allocate_aligned lp64Full 4 16 3 ⟨4, rfl⟩).1.trans rfl⟩

/-- Claim C1 as stated fails: alignment 2 is a power of two and the count is 1, the
heap is not exhausted, and `allocate(1)` raises `bad_alloc` instead of returning
an address. -/
theorem allocate_alignment_two_throws :
    (∃ k, 2 = 2 ^ k) ∧ 1 ≤ 1 ∧ lp64.memalign 2 (requestBytes lp64 4 1) = some 32
      ∧ allocate lp64 4 2 1 = Except.error Exn.bad_alloc
      ∧ ¬ ∃ p, allocate lp64 4 2 1 = Except.ok p ∧ p % 2 = 0 := by
  refine ⟨⟨1, rfl⟩, le_refl 1, rfl, rfl, ?_⟩
  rintro ⟨p, hp, _⟩
  have h : allocate lp64 4 2 1 = Except.error Exn.bad_alloc := rfl
  rw [h] at hp
  cases hp

/-- Claim C9 at the failing input: for 16-byte elements and `n = 2 ^ 60` on the
64-bit platform the product `n * sizeof(T)` is `2 ^ 64`, the request computed in
`size_type` is 0 bytes, and `allocate` returns a block for it. -/
theorem requestBytes_wraps :
    requestBytes lp64 16 (2 ^ 60) = 0
      ∧ ¬ (2 ^ 60 * 16 ≤ requestBytes lp64 16 (2 ^ 60))
      ∧ allocate lp64 16 16 (2 ^ 60) = Except.ok 256 := by
  refine ⟨by decide, by decide, rfl⟩

/-- The request is the exact product whenever the product fits in `size_type`. -/
theorem requestBytes_exact (sys : Platform) (sizeofT n : Nat)
    (h : n * sizeofT < 2 ^ sys.sizeBits) : requestBytes sys sizeofT n = n * sizeofT := by
  unfold requestBytes
  exact Nat.mod_eq_of_lt h

/-- Witness of `requestBytes_exact`: three 16-byte elements. -/
theorem requestBytes_exact_witness :
    3 * 16 < 2 ^ lp64.sizeBits ∧ requestBytes lp64 16 3 = 3 * 16 :=
  ⟨by decide, requestBytes_exact lp64 16 3 (by decide)⟩

end AlignedAllocator

namespace bpvo

/-- Conversion to `int` keeps a value below `2 ^ 31`. -/
theorem toInt32_of_lt (n : Nat) (h : n < 2 ^ 31) : toInt32 n = (n : Int) := by
  unfold toInt32
  have h1 : n % 2 ^ 32 = n := Nat.mod_eq_of_lt (by omega)
  rw [h1, if_pos h]

/-- Conversion to `int` never yields more than the value converted. -/
theorem toInt32_le (n : Nat) : toInt32 n ≤ (n : Int) := by
  unfold toInt32
  have h1 : n % 2 ^ 32 ≤ n := Nat.mod_le n _
  split <;> omega

/-- Conversion of a non-negative `int` to `size_t` keeps the value. -/
theorem toSizeT_of_nonneg (i : Int) (h0 : 0 ≤ i) (h1 : i < 2 ^ 64) : toSizeT i = i.toNat := by
  unfold toSizeT
  rw [Int.emod_eq_of_lt h0 h1]

namespace PointWithInfo

variable {F C : Type}

/-- Every byte of a record is zero after `setZero()`, for every rendering of the
scalars as bytes that renders the zero scalar as zero bytes. -/
theorem setZero_rawBytes [Zero F] [Zero C] (padLen : Nat) (p : PointWithInfo F C)
    (encF : F → List Nat) (encC : C → List Nat)
    (hF : ∀ b ∈ encF 0, b = 0) (hC : ∀ b ∈ encC 0, b = 0) :
    ∀ b ∈ rawBytes encF encC (p.setZero padLen), b = 0 := by
  intro b hb
  simp only [rawBytes, setZero, Vec4.setZero, List.mem_append] at hb
  rcases hb with ((((((h | h) | h) | h) | (((h | h) | h) | h)) | h) | h)
  all_goals first
    | exact hF b h
    | exact hC b h
    | exact List.eq_of_mem_replicate h

/-- Claim C6. After `setZero()` the four position components, the four colour
components, the weight and every padding byte are zero, whatever the record held
before, and so is every byte of the record under every rendering of the scalars
as bytes that renders zero as zero bytes; the result is the all-zero record, so
`setZero()` is idempotent and its result does not depend on the prior state. -/
theorem setZero_all_zero [Zero F] [Zero C] (padLen : Nat) (p : PointWithInfo F C) :
    (p.setZero padLen).xyzw = ⟨0, 0, 0, 0⟩
      ∧ (p.setZero padLen).rgba = ⟨0, 0, 0, 0⟩
      ∧ (p.setZero padLen).weight = 0
      ∧ (p.setZero padLen)._pad.length = padLen
      ∧ (∀ b ∈ (p.setZero padLen)._pad, b = 0)
      ∧ (∀ (encF : F → List Nat) (encC : C → List Nat),
          (∀ b ∈ encF 0, b = 0) → (∀ b ∈ encC 0, b = 0) →
          ∀ b ∈ rawBytes encF encC (p.setZero padLen), b = 0)
      ∧ p.setZero padLen = zeroRecord F C padLen
      ∧ (p.setZero padLen).setZero padLen = p.setZero padLen
      ∧ ∀ q : PointWithInfo F C, q.setZero padLen = p.setZero padLen := by
  refine ⟨rfl, rfl, rfl, ?_, ?_, ?_, rfl, rfl, fun _ => rfl⟩
  · simp [setZero]
  · intro b hb
    simp only [setZero] at hb
    exact List.eq_of_mem_replicate hb
  · intro encF encC hF hC
    exact setZero_rawBytes padLen p encF encC hF hC

/-- Witness of `setZero_all_zero`: a record with non-zero members and two padding
bytes, scalars rendered as four bytes. -/
theorem setZero_all_zero_witness :
    (⟨⟨1, 2, 3, 1⟩, ⟨255, 0, 0, 255⟩, 7, [9, 9]⟩ : PointWithInfo Int Int).setZero 2
        = ⟨⟨0, 0, 0, 0⟩, ⟨0, 0, 0, 0⟩, 0, [0, 0]⟩
      ∧ ∀ b ∈ rawBytes (fun x : Int => if x = 0 then [0, 0, 0, 0] else [1, 1, 1, 1])
          (fun x : Int => if x = 0 then [0, 0, 0, 0] else [1, 1, 1, 1])
          ((⟨⟨1, 2, 3, 1⟩, ⟨255, 0, 0, 255⟩, 7, [9, 9]⟩ : PointWithInfo Int Int).setZero 2),
          b = 0 :=
  ⟨rfl, (setZero_all_zero 2 (⟨⟨1, 2, 3, 1⟩, ⟨255, 0, 0, 255⟩, 7, [9, 9]⟩ :
      PointWithInfo Int Int)).2.2.2.2.2.1 _ _ (by simp) (by simp)⟩

end PointWithInfo

namespace PointCloud

variable {F C T : Type}

/-- Claim C5. After `clear()` the cloud is empty, its size is 0 and its pose is
the pose it had before. -/
theorem clear_empty_size_pose (pc : PointCloud F C T) :
    pc.clear.empty = true ∧ pc.clear.size = 0 ∧ pc.clear.pose = pc.pose :=
  ⟨rfl, rfl, rfl⟩

/-- Claim C4, amended. A cloud pre-sized to `n`, by the constructor or by
`resize(n)` on an empty cloud, has size `n`, and element `i` is the result of the
default constructor on its storage: the weight is zero, while position, colour and
padding are what the storage held. -/
theorem presized_elements [Zero F] (identity pose : T) (raw : Nat → PointWithInfo F C)
    (n : Nat) :
    (ofSizePose raw n pose).size = n
      ∧ ((create identity : PointCloud F C T).resize raw n).size = n
      ∧ (ofSizePose raw n pose).points.elems
          = (List.range n).map (fun i => { raw i with _w := 0 })
      ∧ ((create identity : PointCloud F C T).resize raw n).points.elems
          = (List.range n).map (fun i => { raw i with _w := 0 })
      ∧ (∀ p ∈ (ofSizePose raw n pose).points.elems, p.weight = 0)
      ∧ (∀ p ∈ ((create identity : PointCloud F C T).resize raw n).points.elems,
          p.weight = 0) := by
  have h1 : (ofSizePose raw n pose).points.elems
      = (List.range n).map (fun i => { raw i with _w := 0 }) := rfl
  have h2 : ((create identity : PointCloud F C T).resize raw n).points.elems
      = (List.range n).map (fun i => { raw i with _w := 0 }) := by
    cases n with
    | zero => rfl
    | succ m =>
      simp [resize, create, points, StdVector.resize, StdVector.empty,
        PointWithInfo.construct, List.range_eq_range']
  refine ⟨?_, ?_, h1, h2, ?_, ?_⟩
  · simp [size, StdVector.size, ofSizePose, StdVector.sized]
  · have := congrArg List.length h2
    simpa [size, StdVector.size, points] using this
  · intro p hp
    rw [h1] at hp
    simp only [List.mem_map] at hp
    obtain ⟨i, _, rfl⟩ := hp
    rfl
  · intro p hp
    rw [h2] at hp
    simp only [List.mem_map] at hp
    obtain ⟨i, _, rfl⟩ := hp
    rfl

/-- Claim C4 as stated fails: in storage that held a non-zero record, the
elements of a cloud pre-sized to 1 keep the position, colour and padding of the
storage and differ from the zero record. -/
theorem presized_not_zero :
    (ofSize () (fun _ => (⟨⟨1, 2, 3, 4⟩, ⟨5, 6, 7, 8⟩, 9, [10]⟩ : PointWithInfo Int Int)) 1).size = 1
      ∧ (ofSize () (fun _ => (⟨⟨1, 2, 3, 4⟩, ⟨5, 6, 7, 8⟩, 9, [10]⟩ : PointWithInfo Int Int))
            1).points.elems = [⟨⟨1, 2, 3, 4⟩, ⟨5, 6, 7, 8⟩, 0, [10]⟩]
      ∧ ((create () : PointCloud Int Int Unit).resize
            (fun _ => (⟨⟨1, 2, 3, 4⟩, ⟨5, 6, 7, 8⟩, 9, [10]⟩ : PointWithInfo Int Int))
            1).points.elems = [⟨⟨1, 2, 3, 4⟩, ⟨5, 6, 7, 8⟩, 0, [10]⟩]
      ∧ (⟨⟨1, 2, 3, 4⟩, ⟨5, 6, 7, 8⟩, 0, [10]⟩ : PointWithInfo Int Int)
          ≠ PointWithInfo.zeroRecord Int Int 1 := by
  refine ⟨rfl, rfl, rfl, by decide⟩

/-- Claim C7. After `resize(n)` the sequence has length `n` and its first
`min n |s|` elements are those of the sequence `s` before, in order: a shorter
length drops elements from the end only, a longer one appends only. After
`reserve(n)` the sequence is `s`. Neither changes the pose. -/
theorem resize_reserve_preserve [Zero F] (raw : Nat → PointWithInfo F C) (n : Nat)
    (pc : PointCloud F C T) :
    (pc.resize raw n).size = n
      ∧ (pc.resize raw n).points.elems.take (min n pc.size)
          = pc.points.elems.take (min n pc.size)
      ∧ (pc.resize raw n).points.elems.take pc.size = pc.points.elems.take n
      ∧ (pc.reserve n).points.elems = pc.points.elems
      ∧ (pc.resize raw n).pose = pc.pose
      ∧ (pc.reserve n).pose = pc.pose := by
  refine ⟨?_, ?_, ?_, ?_, rfl, rfl⟩
  · simp only [size, StdVector.size, resize, StdVector.resize]
    split
    · simp [List.length_take]; omega
    · simp; omega
  · simp only [size, StdVector.size, resize, StdVector.resize, points]
    split
    · rename_i h
      simp [List.take_take, Nat.min_eq_left h]
    · rename_i h
      have h2 : pc._points.elems.length ≤ n := by omega
      simp [Nat.min_eq_right h2, List.take_append_of_le_length]
  · simp only [size, StdVector.size, resize, StdVector.resize, points]
    split
    · rename_i h
      rw [List.take_of_length_le]
      simp [List.length_take]
    · rename_i h
      have h2 : pc._points.elems.length ≤ n := by omega
      rw [List.take_of_length_le h2]
      simp
  · simp only [reserve, StdVector.reserve, points]
    split <;> rfl

end PointCloud


/-- On a stream with no state bit set and a device that reports no error, an
output operation appends its text. -/
theorem OFStream.insert_clean (o : Bool) (t : String) (k : Nat) (dev : Nat → Bool)
    (hdev : ∀ j, dev j = false) (str : String) :
    OFStream.insert ⟨o, false, false, t, k, dev⟩ str = ⟨o, false, false, t ++ str, k + 1, dev⟩ := by
  simp [OFStream.insert, OFStream.good, hdev]

/-- On such a stream `std::endl` appends a newline. -/
theorem OFStream.endl_clean (o : Bool) (t : String) (k : Nat) (dev : Nat → Bool)
    (hdev : ∀ j, dev j = false) :
    OFStream.endl ⟨o, false, false, t, k, dev⟩ = ⟨o, false, false, t ++ "\n", k + 1, dev⟩ := by
  simp [OFStream.endl, OFStream.flush, OFStream.insert, OFStream.good, hdev]

/-- An output operation leaves a stream with `failbit` set as it is. -/
theorem OFStream.insert_failed (o b : Bool) (t : String) (k : Nat) (dev : Nat → Bool)
    (str : String) :
    OFStream.insert ⟨o, true, b, t, k, dev⟩ str = ⟨o, true, b, t, k, dev⟩ := by
  simp [OFStream.insert, OFStream.good]

/-- The manipulator `std::endl` leaves a stream with `failbit` set as it is. -/
theorem OFStream.endl_failed (o b : Bool) (t : String) (k : Nat) (dev : Nat → Bool) :
    OFStream.endl ⟨o, true, b, t, k, dev⟩ = ⟨o, true, b, t, k, dev⟩ := by
  simp [OFStream.endl, OFStream.flush, OFStream.insert, OFStream.good]

/-- The header leaves a stream with `failbit` set as it is. -/
theorem writeHeader_failed (b : Bool) (t : String) (k : Nat) (dev : Nat → Bool) (n : Nat)
    (comment : String) :
    writeHeader ⟨false, true, b, t, k, dev⟩ n comment = ⟨false, true, b, t, k, dev⟩ := by
  unfold writeHeader
  by_cases hc : comment.isEmpty = true <;>
    simp [hc, OFStream.insert_failed, OFStream.endl_failed]

/-- A data line leaves a stream with `failbit` set as it is. -/
theorem writePoint_failed {F C : Type} (fmt : F → String) (castInt : C → Int) (b : Bool)
    (t : String) (k : Nat) (dev : Nat → Bool) (p : PointWithInfo F C) :
    writePoint fmt castInt ⟨false, true, b, t, k, dev⟩ p = ⟨false, true, b, t, k, dev⟩ := by
  simp [writePoint, OFStream.insert_failed]

/-- The loop over the points leaves a stream with `failbit` set as it is. -/
theorem foldl_writePoint_failed {F C : Type} (fmt : F → String) (castInt : C → Int) (b : Bool)
    (t : String) (k : Nat) (dev : Nat → Bool) (ps : List (PointWithInfo F C)) :
    ps.foldl (writePoint fmt castInt) ⟨false, true, b, t, k, dev⟩
      = ⟨false, true, b, t, k, dev⟩ := by
  induction ps with
  | nil => rfl
  | cons p ps ih => simp [List.foldl, writePoint_failed, ih]

/-- The conversion to `int` lies in the range of `int`. -/
theorem toInt32_range (n : Nat) : -(2 ^ 31) ≤ toInt32 n ∧ toInt32 n < 2 ^ 31 := by
  unfold toInt32
  have h1 : n % 2 ^ 32 < 2 ^ 32 := Nat.mod_lt _ (by norm_num)
  split <;> constructor <;> omega

/-- A non-negative scratch size gives a buffer. -/
theorem scratchBuffer_of_nonneg (n : Nat) (h : 0 ≤ scratchBytes n) :
    scratchBuffer (scratchBytes n) = Except.ok (scratchBytes n).toNat := by
  have hr := toInt32_range ((n * (3 * 4 + 4 * 1)) % 2 ^ 64)
  unfold scratchBytes at h ⊢
  unfold scratchBuffer
  rw [toSizeT_of_nonneg _ h (by omega)]
  have : ¬ ((toInt32 (n * (3 * 4 + 4 * 1) % 2 ^ 64)).toNat > 2 ^ 63 - 1) := by omega
  rw [if_neg this]

/-- A negative scratch size raises `std::length_error`. -/
theorem scratchBuffer_of_neg (n : Nat) (h : scratchBytes n < 0) :
    scratchBuffer (scratchBytes n) = Except.error Exn.length_error := by
  have hr := toInt32_range ((n * (3 * 4 + 4 * 1)) % 2 ^ 64)
  unfold scratchBytes at h ⊢
  unfold scratchBuffer toSizeT
  have h2 : toInt32 (n * (3 * 4 + 4 * 1) % 2 ^ 64) % 2 ^ 64
      = toInt32 (n * (3 * 4 + 4 * 1) % 2 ^ 64) + 2 ^ 64 := by
    rw [← Int.add_emod_self]
    exact Int.emod_eq_of_lt (by omega) (by omega)
  rw [h2]
  have : (toInt32 (n * (3 * 4 + 4 * 1) % 2 ^ 64) + 2 ^ 64).toNat > 2 ^ 63 - 1 := by omega
  rw [if_pos this]

/-- Fewer than `2 ^ 27` points give a non-negative scratch size. -/
theorem scratchBytes_of_lt (n : Nat) (h : n < 2 ^ 27) : 0 ≤ scratchBytes n := by
  unfold scratchBytes
  have h1 : (n * (3 * 4 + 4 * 1)) % 2 ^ 64 = n * 16 := Nat.mod_eq_of_lt (by omega)
  rw [h1, toInt32_of_lt _ (by omega)]
  omega

/-- Claim C2 on the code. For a path that cannot be opened, every comment and
every sequence of fewer than `2 ^ 27` points, `ToPlyFile` raises nothing, logs
nothing, leaves no file and returns `true`: the stream has `failbit` set and
`badbit` clear, and the function returns `!ofs.bad()`. -/
theorem ToPlyFile_unopenable_returns_true {F C : Type} (fs : FileSystem) (fmt : F → String)
    (castInt : C → Int) (filename : String) (points : StdVector (PointWithInfo F C))
    (comment : String) (hopen : fs.canOpen filename = false) (hsize : points.size < 2 ^ 27) :
    ToPlyFile fs fmt castInt filename points comment = Except.ok ⟨true, none, []⟩ := by
  have hfit := scratchBuffer_of_nonneg points.size (scratchBytes_of_lt _ hsize)
  simp [ToPlyFile, tryBlock, ofstream, hopen, hfit, writeHeader_failed,
    foldl_writePoint_failed, OFStream.close, OFStream.bad]

/-- Witness of `ToPlyFile_unopenable_returns_true`: the three example points
exported into a directory that does not exist. -/
theorem ToPlyFile_unopenable_witness :
    fsNoDirectory.canOpen "/nonexistent/cloud.ply" = false
      ∧ (⟨examplePoints, 3⟩ : StdVector (PointWithInfo Int UChar)).size < 2 ^ 27
      ∧ ToPlyFile fsNoDirectory fmtIntegral UChar.toInt "/nonexistent/cloud.ply"
          ⟨examplePoints, 3⟩ "scan" = Except.ok ⟨true, none, []⟩ :=
  ⟨rfl, by decide, ToPlyFile_unopenable_returns_true fsNoDirectory _ _ _ _ _ rfl (by decide)⟩

/-- No exception leaves `ToPlyFile`: every call returns a result. -/
theorem ToPlyFile_no_exception {F C : Type} (fs : FileSystem) (fmt : F → String)
    (castInt : C → Int) (filename : String) (points : StdVector (PointWithInfo F C))
    (comment : String) :
    ∃ r, ToPlyFile fs fmt castInt filename points comment = Except.ok r := by
  cases h : (tryBlock fs fmt castInt filename points comment).2 with
  | ok b =>
    simp only [ToPlyFile, h]
    exact ⟨_, rfl⟩
  | error e =>
    cases e <;>
    · simp only [ToPlyFile, h, Exn.isStdException, if_true]
      exact ⟨_, rfl⟩


/-- Two stream states agree when their texts and operation counts agree. -/
theorem OFStream.mk_congr (o f b : Bool) (dev : Nat → Bool) {t u : String} {k m : Nat}
    (h1 : t = u) (h2 : k = m) : (⟨o, f, b, t, k, dev⟩ : OFStream) = ⟨o, f, b, u, m, dev⟩ := by
  subst h1 h2
  rfl

/-- The header text. -/
theorem writeHeader_clean (o : Bool) (t : String) (k : Nat) (dev : Nat → Bool)
    (hdev : ∀ j, dev j = false) (n : Nat) (comment : String) :
    writeHeader ⟨o, false, false, t, k, dev⟩ n comment
      = ⟨o, false, false,
          t ++ String.join ((plyHeaderLines comment n).map (fun l => l ++ "\n")),
          k + (if comment.isEmpty then 25 else 28), dev⟩ := by
  unfold writeHeader
  by_cases hc : comment.isEmpty = true
  · have hc2 : comment = "" := (String.isEmpty_iff _).1 hc
    subst hc2
    simp only [OFStream.insert_clean _ _ _ _ hdev, OFStream.endl_clean _ _ _ _ hdev, hc,
      Bool.not_true, Bool.false_eq_true, if_false, plyHeaderLines, if_true]
    apply OFStream.mk_congr
    · apply String.ext
      simp [String.data_join]
    · rfl
  · have hc2 : comment ≠ "" := fun h => hc ((String.isEmpty_iff _).2 h)
    simp only [OFStream.insert_clean _ _ _ _ hdev, OFStream.endl_clean _ _ _ _ hdev, hc,
      Bool.not_false, if_true, plyHeaderLines, hc2, if_false]
    apply OFStream.mk_congr
    · apply String.ext
      simp [String.data_join]
    · simp only [Bool.false_eq_true, if_false]

/-- One data line. -/
theorem writePoint_clean {F C : Type} (fmt : F → String) (castInt : C → Int) (o : Bool)
    (t : String) (k : Nat) (dev : Nat → Bool) (hdev : ∀ j, dev j = false)
    (p : PointWithInfo F C) :
    writePoint fmt castInt ⟨o, false, false, t, k, dev⟩ p
      = ⟨o, false, false, t ++ (" ".intercalate (plyDataFields fmt castInt p) ++ "\n"),
          k + 14, dev⟩ := by
  simp only [writePoint, OFStream.insert_clean _ _ _ _ hdev, plyDataFields,
    String.intercalate, String.intercalate.go]
  apply OFStream.mk_congr
  · apply String.ext
    simp
  · rfl

/-- The data lines. -/
theorem foldl_writePoint_clean {F C : Type} (fmt : F → String) (castInt : C → Int) (o : Bool)
    (dev : Nat → Bool) (hdev : ∀ j, dev j = false) (ps : List (PointWithInfo F C))
    (t : String) (k : Nat) :
    ps.foldl (writePoint fmt castInt) ⟨o, false, false, t, k, dev⟩
      = ⟨o, false, false,
          t ++ String.join (ps.map
            (fun p => " ".intercalate (plyDataFields fmt castInt p) ++ "\n")),
          k + 14 * ps.length, dev⟩ := by
  induction ps generalizing t k with
  | nil => simp [String.join]
  | cons p ps ih =>
    rw [List.foldl_cons, writePoint_clean fmt castInt o t k dev hdev, ih]
    apply OFStream.mk_congr
    · apply String.ext
      simp [String.data_join]
    · simp only [List.length_cons]
      ring


/-- The PLY text of the specification is the header text followed by the text of
the data lines. -/
theorem plyText_eq {F C : Type} (fmt : F → String) (castInt : C → Int)
    (points : List (PointWithInfo F C)) (comment : String) :
    plyText fmt castInt points comment
      = String.join ((plyHeaderLines comment points.length).map (fun l => l ++ "\n"))
        ++ String.join (points.map
            (fun p => " ".intercalate (plyDataFields fmt castInt p) ++ "\n")) := by
  apply String.ext
  simp [plyText, String.data_join, List.map_append, List.map_map, Function.comp_def]

/-- The text `ToPlyFile` writes to a file that opens and takes every write, for a
point sequence whose scratch size is not negative as an `int`, is the text the
specification describes, and the function returns `true`. -/
theorem ToPlyFile_writes_ply {F C : Type} (fs : FileSystem) (fmt : F → String)
    (castInt : C → Int) (filename : String) (points : StdVector (PointWithInfo F C))
    (comment : String) (hopen : fs.canOpen filename = true)
    (hdev : ∀ k, fs.writeError filename k = false) (hfit : 0 ≤ scratchBytes points.size) :
    ToPlyFile fs fmt castInt filename points comment
      = Except.ok ⟨true, some (plyText fmt castInt points.elems comment), []⟩ := by
  have hbuf := scratchBuffer_of_nonneg points.size hfit
  simp only [ToPlyFile, tryBlock, ofstream, hopen, if_true, hbuf,
    writeHeader_clean _ _ _ _ hdev, foldl_writePoint_clean _ _ _ _ hdev, OFStream.close,
    OFStream.bad, plyText_eq, String.empty_append, Bool.not_false]
  rfl

/-- Witness of `ToPlyFile_writes_ply`: the round-trip example of the
specification. -/
theorem ToPlyFile_writes_ply_witness :
    fsWritable.canOpen "cloud.ply" = true
      ∧ (∀ k, fsWritable.writeError "cloud.ply" k = false)
      ∧ 0 ≤ scratchBytes (⟨examplePoints, 3⟩ : StdVector (PointWithInfo Int UChar)).size
      ∧ ToPlyFile fsWritable fmtIntegral UChar.toInt "cloud.ply"
          ⟨examplePoints, 3⟩ ""
        = Except.ok ⟨true, some ("ply\nformat ascii 1.0\ncomment generated by bpvo\n"
            ++ "element vertex 3\nproperty float x\nproperty float y\nproperty float z\n"
            ++ "property uchar red\nproperty uchar green\nproperty uchar blue\n"
            ++ "property uchar alpha\nend_header\n"
            ++ "0 0 0 255 0 0 255\n1 0 0 0 255 0 255\n0 1 0 0 0 255 255\n"), []⟩ :=
  ⟨rfl, fun _ => rfl, by decide,
    (ToPlyFile_writes_ply fsWritable fmtIntegral UChar.toInt "cloud.ply"
      ⟨examplePoints, 3⟩ "" rfl (fun _ => rfl) (by decide)).trans rfl⟩

/-- Claim C3 on the code. When the scratch size `points.size() * 16` is negative
as an `int`, the construction of the scratch buffer raises `std::length_error`
after the header was written: the file holds the header and no data line, the
warning is logged and `ToPlyFile` returns `false`. -/
theorem ToPlyFile_scratch_overflow {F C : Type} (fs : FileSystem) (fmt : F → String)
    (castInt : C → Int) (filename : String) (points : StdVector (PointWithInfo F C))
    (comment : String) (hopen : fs.canOpen filename = true)
    (hdev : ∀ k, fs.writeError filename k = false) (hneg : scratchBytes points.size < 0) :
    ToPlyFile fs fmt castInt filename points comment
      = Except.ok ⟨false,
          some (String.join ((plyHeaderLines comment points.size).map (fun l => l ++ "\n"))),
          ["Failed to open file " ++ filename ++ "\n"]⟩ := by
  have hbuf := scratchBuffer_of_neg points.size hneg
  simp only [ToPlyFile, tryBlock, ofstream, hopen, if_true, hbuf,
    writeHeader_clean _ _ _ _ hdev, Exn.isStdException, String.empty_append]
  rfl



/-- The length of a sequence of `2 ^ 27` zero records. -/
theorem size_replicate_two_pow_27 :
    (⟨List.replicate (2 ^ 27) (PointWithInfo.zeroRecord Int UChar 0), 2 ^ 27⟩ :
      StdVector (PointWithInfo Int UChar)).size = 2 ^ 27 := by
  simp only [StdVector.size, List.length_replicate]

/-- Witness of `ToPlyFile_scratch_overflow`: a sequence of `2 ^ 27` points written
to a file that opens and takes every write. The file ends after `end_header`
although the header announces 134217728 vertices. -/
theorem ToPlyFile_scratch_overflow_witness :
    fsWritable.canOpen "cloud.ply" = true
      ∧ (∀ k, fsWritable.writeError "cloud.ply" k = false)
      ∧ scratchBytes (2 ^ 27) = -2 ^ 31
      ∧ ToPlyFile fsWritable fmtIntegral UChar.toInt "cloud.ply"
          ⟨List.replicate (2 ^ 27) (PointWithInfo.zeroRecord Int UChar 0), 2 ^ 27⟩ ""
        = Except.ok ⟨false, some ("ply\nformat ascii 1.0\ncomment generated by bpvo\n"
            ++ "element vertex 134217728\nproperty float x\nproperty float y\n"
            ++ "property float z\nproperty uchar red\nproperty uchar green\n"
            ++ "property uchar blue\nproperty uchar alpha\nend_header\n"),
            ["Failed to open file cloud.ply\n"]⟩ := by
  have h := ToPlyFile_scratch_overflow fsWritable fmtIntegral UChar.toInt
    "cloud.ply" ⟨List.replicate (2 ^ 27) (PointWithInfo.zeroRecord Int UChar 0), 2 ^ 27⟩ ""
    rfl (fun _ => rfl) (by rw [size_replicate_two_pow_27]; decide)
  rw [size_replicate_two_pow_27] at h
  have e : String.join ((plyHeaderLines "" (2 ^ 27)).map (fun l => l ++ "\n"))
      = ("ply\nformat ascii 1.0\ncomment generated by bpvo\n"
            ++ "element vertex 134217728\nproperty float x\nproperty float y\n"
            ++ "property float z\nproperty uchar red\nproperty uchar green\n"
            ++ "property uchar blue\nproperty uchar alpha\nend_header\n") := by rfl
  rw [e] at h
  refine ⟨rfl, fun _ => rfl, by decide, ?_⟩
  rw [h]
  rfl

/-- The conversion `(int)` of an 8-bit unsigned channel lies in `0..255`. -/
theorem UChar.toInt_in_byte_range (c : UChar) : 0 ≤ UChar.toInt c ∧ UChar.toInt c ≤ 255 := by
  unfold UChar.toInt
  have := c.isLt
  omega

/-- Claim C8. On a stream that takes the output, the data line `ToPlyFile` writes
for a point holds the three position values and then, for each of red, green,
blue and alpha, the stored channel value converted by `(int)`; each of these four
integers is the value of the stored channel and lies in `0..255`, the range of
the `property uchar` declarations of the header. -/
theorem colour_written_in_byte_range {F : Type} (fmt : F → String) (o : Bool)
    (t : String) (k : Nat) (dev : Nat → Bool) (hdev : ∀ j, dev j = false)
    (p : PointWithInfo F UChar) :
    (writePoint fmt UChar.toInt ⟨o, false, false, t, k, dev⟩ p).text
        = t ++ (fmt p.xyzw.x ++ " " ++ fmt p.xyzw.y ++ " " ++ fmt p.xyzw.z ++ " "
            ++ toString (UChar.toInt p.rgba.x) ++ " " ++ toString (UChar.toInt p.rgba.y) ++ " "
            ++ toString (UChar.toInt p.rgba.z) ++ " " ++ toString (UChar.toInt p.rgba.w)
            ++ "\n")
      ∧ ∀ c ∈ [p.rgba.x, p.rgba.y, p.rgba.z, p.rgba.w],
          UChar.toInt c = (c.val : Int) ∧ 0 ≤ UChar.toInt c ∧ UChar.toInt c ≤ 255 := by
  refine ⟨?_, ?_⟩
  · rw [writePoint_clean fmt UChar.toInt o t k dev hdev]
    rfl
  · intro c _
    exact ⟨rfl, UChar.toInt_in_byte_range c⟩

/-- Witness of `colour_written_in_byte_range`: the data line of the red point. -/
theorem colour_written_in_byte_range_witness :
    (∀ j, fsWritable.writeError "cloud.ply" j = false)
      ∧ (writePoint fmtIntegral UChar.toInt
          ⟨true, false, false, "", 0, fsWritable.writeError "cloud.ply"⟩ redPoint).text
        = "0 0 0 255 0 0 255\n" :=
  ⟨fun _ => rfl,
    (colour_written_in_byte_range fmtIntegral true "" 0
      (fsWritable.writeError "cloud.ply") (fun _ => rfl) redPoint).1.trans rfl⟩

namespace PointCloud

variable {F C T : Type}

/-- Claim C10 at the failing input: in a cloud of `2 ^ 31` points the index 0 is in
range, the size converted to `int` is `-2 ^ 31`, the assertion of `operator[]`
fails and the debug build does not return element 0. -/
theorem subscript_rejects_valid_index :
    hugeCloud.size = 2 ^ 31
      ∧ (0 ≤ (0 : Int) ∧ (0 : Int) < (hugeCloud.size : Int))
      ∧ toInt32 hugeCloud.size = -2 ^ 31
      ∧ hugeCloud.subscriptAssert 0 = false
      ∧ hugeCloud.subscript 0 = none := by
  have hs : hugeCloud.size = 2 ^ 31 := by
    simp only [hugeCloud, size, StdVector.size, List.length_replicate]
  have ha : hugeCloud.subscriptAssert 0 = false := by
    unfold subscriptAssert
    rw [hs]
    decide
  refine ⟨hs, ⟨le_refl 0, by rw [hs]; decide⟩, by rw [hs]; decide, ha, ?_⟩
  unfold subscript
  rw [ha]
  rfl

/-- Whenever the assertion of `operator[]` holds, the index lies in
`0 <= i < size()` and the element returned is element `i` of the sequence. -/
theorem subscriptAssert_sound (pc : PointCloud F C T) (i : Int)
    (h : pc.subscriptAssert i = true) :
    0 ≤ i ∧ i < (pc.size : Int) ∧ pc.subscript i = pc.points.elems[i.toNat]?
      ∧ ∃ p, pc.subscript i = some p := by
  have hle := toInt32_le pc.size
  have hr := toInt32_range pc.size
  simp only [subscriptAssert, Bool.and_eq_true, decide_eq_true_eq] at h
  obtain ⟨h0, h1⟩ := h
  have hsub : pc.subscript i = pc.points.elems[i.toNat]? := by
    unfold subscript
    rw [if_pos (by simp [subscriptAssert, h0, h1]), toSizeT_of_nonneg i h0 (by omega)]
    rfl
  have hlt : i.toNat < pc.points.elems.length := by
    have : (pc.size : Int) = (pc.points.elems.length : Int) := rfl
    omega
  refine ⟨h0, by omega, hsub, ⟨pc.points.elems[i.toNat], ?_⟩⟩
  rw [hsub]
  exact List.getElem?_eq_getElem hlt

/-- Witness of `subscriptAssert_sound`: index 1 of a cloud of two points. -/
theorem subscriptAssert_sound_witness :
    (⟨⟨[redPoint, redPoint], 2⟩, ()⟩ : PointCloud Int UChar Unit).subscriptAssert 1
        = true
      ∧ (⟨⟨[redPoint, redPoint], 2⟩, ()⟩ : PointCloud Int UChar Unit).subscript 1
        = some redPoint :=
  ⟨by decide,
    (subscriptAssert_sound (⟨⟨[redPoint, redPoint], 2⟩, ()⟩ :
      PointCloud Int UChar Unit) 1 (by decide)).2.2.1.trans rfl⟩

/-- For a cloud of fewer than `2 ^ 31` points the assertion of `operator[]` holds
exactly for the indices in `0 <= i < size()`. -/
theorem subscriptAssert_iff_of_small (pc : PointCloud F C T) (i : Int)
    (hs : pc.size < 2 ^ 31) :
    pc.subscriptAssert i = true ↔ (0 ≤ i ∧ i < (pc.size : Int)) := by
  simp only [subscriptAssert, Bool.and_eq_true, decide_eq_true_eq, toInt32_of_lt _ hs]

/-- Witness of `subscriptAssert_iff_of_small`: a cloud of two points, index 2. -/
theorem subscriptAssert_iff_of_small_witness :
    (⟨⟨[redPoint, redPoint], 2⟩, ()⟩ : PointCloud Int UChar Unit).size < 2 ^ 31
      ∧ ((⟨⟨[redPoint, redPoint], 2⟩, ()⟩ : PointCloud Int UChar Unit).subscriptAssert 2
          = true ↔ (0 ≤ (2 : Int) ∧ (2 : Int)
            < (((⟨⟨[redPoint, redPoint], 2⟩, ()⟩ :
                PointCloud Int UChar Unit).size : Nat) : Int))) :=
  ⟨by decide, subscriptAssert_iff_of_small _ 2 (by decide)⟩

end PointCloud

end bpvo
